import Mathlib

/-!
Shallow embedding of the angle-triggered stimulation controller and the
Bayesian optimizer of the hand-cycling FES repository.

Angles, intensities and costs are embedded as rationals where the Python
code only performs field arithmetic and comparisons, and as reals where
transcendental functions (exp, sqrt, the normal CDF, pi) appear.  Python
exceptions are embedded as `Except String`.
-/

/-- Python integer truncation `int(x)`: rounds toward zero. -/
def pyInt (q : ℚ) : ℤ := if q < 0 then -(⌊-q⌋) else ⌊q⌋

/-- Python division `a / b` on numbers: raises `ZeroDivisionError` when `b = 0`. -/
def pyDiv (a b : ℚ) : Except String ℚ :=
  if b = 0 then .error "ZeroDivisionError" else .ok (a / b)

/-- The four muscle keys of `HandCycling2.MUSCLE_KEYS` (src/stim_worker.py line 32). -/
inductive Muscle
  | biceps_r
  | triceps_r
  | biceps_l
  | triceps_l
deriving DecidableEq

/-- The list `HandCycling2.MUSCLE_KEYS`. -/
def MUSCLE_KEYS : List Muscle := [.biceps_r, .triceps_r, .biceps_l, .triceps_l]

/-- View of `StimParameters` (src/common_types.py) restricted to the fields read
by `HandCycling2.apply_parameters` through `getattr(params, f"..._{muscle}")`. -/
structure StimParameters where
  onset_deg : Muscle → ℚ
  offset_deg : Muscle → ℚ
  pulse_intensity : Muscle → ℚ
  pulse_width : Muscle → ℚ

/-- Mutable state of `HandCycling2` (src/stim_worker.py): per-muscle angular
window, intensity, pulse width, on/off flag, the hardware channel settings,
and the current angle estimate in degrees. -/
structure ControllerState where
  stimulation_range : Muscle → ℚ × ℚ
  intensity : Muscle → ℚ
  pulse_width : Muscle → ℚ
  stimulation_state : Muscle → Bool
  channel_amplitude : Muscle → ℚ
  channel_pulse_width : Muscle → ℚ
  angle : ℚ

/-- Embedding of `HandCycling2.apply_parameters` (src/stim_worker.py lines
130-150).  It takes only `params` (there is no second argument) and, for every
muscle in `MUSCLE_KEYS`, unconditionally overwrites the stimulation range, the
intensity and the pulse width.  All call sites in the repository pass a second
`really_change_stim_intensity` argument that this signature does not accept. -/
def apply_parameters (st : ControllerState) (params : StimParameters) : ControllerState :=
  MUSCLE_KEYS.foldl
    (fun s m =>
      { s with
        stimulation_range :=
          Function.update s.stimulation_range m
            (((pyInt (params.onset_deg m) : ℚ)), ((pyInt (params.offset_deg m) : ℚ)))
        intensity := Function.update s.intensity m ((pyInt (params.pulse_intensity m) : ℚ))
        pulse_width := Function.update s.pulse_width m ((pyInt (params.pulse_width m) : ℚ)) })
    st

/-- Embedding of `HandCycling2.should_stimulation_be_active` (src/stim_worker.py
lines 189-197); `angle` stands for `self.angle`. -/
def should_stimulation_be_active (angle onset offset : ℚ) : Except String Bool :=
  if onset < offset then
    .ok (decide (onset ≤ angle) && decide (angle ≤ offset))
  else if onset > offset then
    .ok (!(decide (onset ≥ angle) && decide (angle ≥ offset)))
  else
    .error "The onset and offset have the same value."

/-- One iteration of the per-muscle loop of
`HandCycling2.update_stimulation_for_current_angle` (src/stim_worker.py lines
209-241), threading the state and the two flags through the rest of the key
list.  The `elif` branch of the source calls `should_stimulation_be_active` a
second time with the same arguments; the call is pure, so it is evaluated
once here. -/
def update_tick :
    List Muscle → ControllerState → Bool → Bool →
      Except String (ControllerState × Bool × Bool)
  | [], st, act, deact => .ok (st, act, deact)
  | key :: rest, st, act, deact =>
    let onset := (st.stimulation_range key).1
    let offset := (st.stimulation_range key).2
    let is_stimulation_active := st.stimulation_state key
    if 360 < st.angle ∨ st.angle < 0 then
      .error "EEEEEEEEEEEEEEror"
    else do
      let should_be_active ← should_stimulation_be_active st.angle onset offset
      if !is_stimulation_active && should_be_active then
        update_tick rest
          { st with
            stimulation_state := Function.update st.stimulation_state key true
            channel_amplitude := Function.update st.channel_amplitude key (st.intensity key)
            channel_pulse_width :=
              Function.update st.channel_pulse_width key (st.pulse_width key) }
          true deact
      else if is_stimulation_active && !should_be_active then
        update_tick rest
          { st with
            stimulation_state := Function.update st.stimulation_state key false
            channel_amplitude := Function.update st.channel_amplitude key 0 }
          act true
      else
        update_tick rest st act deact

/-- Embedding of `HandCycling2.update_stimulation_for_current_angle`
(src/stim_worker.py lines 199-243).  `keys` is `self.stimulation_range.keys()`
and `latest_angle` is the value read from `self.worker_pedal`. -/
def update_stimulation_for_current_angle (keys : List Muscle)
    (st : ControllerState) (latest_angle : ℚ) :
    Except String (ControllerState × Bool × Bool) :=
  update_tick keys { st with angle := latest_angle } false false

/-- A concrete controller state: the `HandCycling2.__init__` defaults of
src/stim_worker.py (window `[220, 10]`, intensity 10, pulse width 100,
stimulation off, channel amplitude 10 and pulse width 350, angle 0). -/
def initControllerState : ControllerState where
  stimulation_range := fun _ => (220, 10)
  intensity := fun _ => 10
  pulse_width := fun _ => 100
  stimulation_state := fun _ => false
  channel_amplitude := fun _ => 10
  channel_pulse_width := fun _ => 350
  angle := 0

/-- Concrete BO parameters whose intensity (7) differs from the default
controller intensity (10). -/
def testStimParameters : StimParameters where
  onset_deg := fun _ => 220
  offset_deg := fun _ => 10
  pulse_intensity := fun _ => 7
  pulse_width := fun _ => 100

/-- Per-muscle parameter bounds: the entries of `PARAMS_BOUNDS[muscle]`
(src/constants.py lines 138-187). -/
structure ParamBounds where
  onset_deg_lo : ℚ
  onset_deg_hi : ℚ
  offset_deg_lo : ℚ
  offset_deg_hi : ℚ
  pulse_intensity_lo : ℚ
  pulse_intensity_hi : ℚ

/-- The `pulse_intensity` bounds `[5, 15]` shared by every muscle entry of
`PARAMS_BOUNDS` (src/constants.py line 143 and the parallel entries). -/
def PULSE_INTENSITY_BOUNDS : ℚ × ℚ := (5, 15)

/-- Per-muscle observation store of `BayesianOptimizer`
(src/bayesian_optimizer.py lines 104-107): `input_observed`,
`output_observed`, `best_x` and `best_y` for one muscle key.  `best_y`
starts at `np.inf`, embedded as `⊤ : WithTop ℚ`; `best_x` starts empty,
embedded as `none`. -/
structure MuscleObs where
  input_observed : List (ℚ × ℚ × ℚ)
  output_observed : List ℚ
  best_x : Option (ℚ × ℚ × ℚ)
  best_y : WithTop ℚ
deriving DecidableEq

/-- The empty observation store a fresh `BayesianOptimizer` starts from. -/
def initMuscleObs : MuscleObs := ⟨[], [], none, ⊤⟩

/-- Append one observation and conditionally update the incumbent: the common
update step of `BayesianOptimizer.initialize` (src/bayesian_optimizer.py
lines 210-217) and of the main loop (lines 243-251).  The incumbent is
replaced only when the new cost is strictly lower. -/
def recordObservation (st : MuscleObs) (x : ℚ × ℚ × ℚ) (y : ℚ) : MuscleObs where
  input_observed := st.input_observed ++ [x]
  output_observed := st.output_observed ++ [y]
  best_x := if (y : WithTop ℚ) < st.best_y then some x else st.best_x
  best_y := if (y : WithTop ℚ) < st.best_y then (y : WithTop ℚ) else st.best_y

/-- The parameter triple tested for one muscle at initialization trial `i`
(src/bayesian_optimizer.py lines 188-206): onset and offset come from
`np.random.uniform` (embedded as the supplied draws), the intensity is the
habituation ramp `lo + i * (hi - lo) / (n - 1)`; the increment uses Python
division, which raises `ZeroDivisionError` when `n = 1`. -/
def initTrialParams (b : ParamBounds) (n i : ℕ) (onset_draw offset_draw : ℚ) :
    Except String (ℚ × ℚ × ℚ) := do
  let intensity_increment ←
    pyDiv (b.pulse_intensity_hi - b.pulse_intensity_lo) ((n : ℚ) - 1)
  .ok (onset_draw, offset_draw, b.pulse_intensity_lo + (i : ℚ) * intensity_increment)

/-- The intensity value of a successful initialization trial. -/
def rampIntensity (b : ParamBounds) (n i : ℕ) : ℚ :=
  b.pulse_intensity_lo +
    (i : ℚ) * ((b.pulse_intensity_hi - b.pulse_intensity_lo) / ((n : ℚ) - 1))

/-- The per-muscle `x` list assembled by one initialization cycle
(src/bayesian_optimizer.py lines 186-206), in muscle order. -/
def buildTrialParams {μ : Type} (bounds : μ → ParamBounds)
    (onset_draws offset_draws : ℕ → μ → ℚ) (n i : ℕ) :
    List μ → Except String (List (μ × (ℚ × ℚ × ℚ)))
  | [] => .ok []
  | m :: rest => do
    let x ← initTrialParams (bounds m) n i (onset_draws i m) (offset_draws i m)
    let xs ← buildTrialParams bounds onset_draws offset_draws n i rest
    .ok ((m, x) :: xs)

/-- Record the per-muscle observations of one evaluation
(src/bayesian_optimizer.py lines 209-217 and 243-251): for each muscle in
order, append its parameter triple and the cost returned for it. -/
def recordAll {μ : Type} [DecidableEq μ] (cost : μ → ℚ)
    (xs : List (μ × (ℚ × ℚ × ℚ))) (st : μ → MuscleObs) : μ → MuscleObs :=
  xs.foldl (fun acc p => Function.update acc p.1 (recordObservation (acc p.1) p.2 (cost p.1))) st

/-- One initialization cycle `i` of `BayesianOptimizer.initialize`
(src/bayesian_optimizer.py lines 184-217): build the trial parameters for
all muscles (which may raise `ZeroDivisionError` before any evaluation is
issued), evaluate them in one `iteration_func` call (embedded as the `cost`
oracle indexed by cycle number), and record the per-muscle observations. -/
def initCycle {μ : Type} [DecidableEq μ] (muscles : List μ) (bounds : μ → ParamBounds)
    (onset_draws offset_draws : ℕ → μ → ℚ) (cost : ℕ → μ → ℚ) (n i : ℕ)
    (st : μ → MuscleObs) : Except String (μ → MuscleObs) := do
  let xs ← buildTrialParams bounds onset_draws offset_draws n i muscles
  .ok (recordAll (cost i) xs st)

/-- The cycle loop of `BayesianOptimizer.initialize` (src/bayesian_optimizer.py
lines 184-217): `k` remaining cycles starting at cycle index `i`.  The final
`gp.fit` calls (lines 219-220) only rebuild the Gaussian-process caches and
do not touch the observation stores modelled here. -/
def initPhaseLoop {μ : Type} [DecidableEq μ] (muscles : List μ) (bounds : μ → ParamBounds)
    (onset_draws offset_draws : ℕ → μ → ℚ) (cost : ℕ → μ → ℚ) (n : ℕ) :
    ℕ → ℕ → (μ → MuscleObs) → Except String (μ → MuscleObs)
  | 0, _, st => .ok st
  | k + 1, i, st => do
    let st' ← initCycle muscles bounds onset_draws offset_draws cost n i st
    initPhaseLoop muscles bounds onset_draws offset_draws cost n k (i + 1) st'

/-- `BayesianOptimizer.initialize(nb_initialization_cycles)`
(src/bayesian_optimizer.py lines 176-220), starting from the observation
state `st0` (empty for a fresh optimizer). -/
def initPhase {μ : Type} [DecidableEq μ] (muscles : List μ) (bounds : μ → ParamBounds)
    (onset_draws offset_draws : ℕ → μ → ℚ) (cost : ℕ → μ → ℚ) (n : ℕ)
    (st0 : μ → MuscleObs) : Except String (μ → MuscleObs) :=
  initPhaseLoop muscles bounds onset_draws offset_draws cost n n 0 st0

/-- One main-loop iteration of `BayesianOptimizer.optimize`
(src/bayesian_optimizer.py lines 235-257): the candidate for each muscle
comes from `suggest_next_point` (multi-start bounded minimization of the
negative acquisition, embedded as the `suggest` oracle) and the evaluation
from `iteration_func` (embedded as the `cost` oracle at evaluation index
`nb + i`); observations and incumbents are updated exactly as in the
initialization phase.  The per-iteration `gp.fit` refits only rebuild the
Gaussian-process caches. -/
def mainStep {μ : Type} [DecidableEq μ] (muscles : List μ)
    (suggest : ℕ → μ → ℚ × ℚ × ℚ) (cost : ℕ → μ → ℚ) (nb i : ℕ)
    (st : μ → MuscleObs) : μ → MuscleObs :=
  recordAll (cost (nb + i)) (muscles.map (fun m => (m, suggest i m))) st

/-- The main loop of `BayesianOptimizer.optimize`: `k` remaining iterations
starting at iteration index `i`. -/
def mainLoop {μ : Type} [DecidableEq μ] (muscles : List μ)
    (suggest : ℕ → μ → ℚ × ℚ × ℚ) (cost : ℕ → μ → ℚ) (nb : ℕ) :
    ℕ → ℕ → (μ → MuscleObs) → (μ → MuscleObs)
  | 0, _, st => st
  | k + 1, i, st =>
    mainLoop muscles suggest cost nb k (i + 1) (mainStep muscles suggest cost nb i st)

/-- `BayesianOptimizer.optimize(n_iterations, nb_initialization_cycles)`
(src/bayesian_optimizer.py lines 222-259): the initialization phase from the
fresh empty state, then `n_iterations` suggest/evaluate/update steps. The
returned per-muscle `OptimizationResults` read the final `best_x`/`best_y`
stored in the state. -/
def optimize {μ : Type} [DecidableEq μ] (muscles : List μ) (bounds : μ → ParamBounds)
    (onset_draws offset_draws : ℕ → μ → ℚ) (suggest : ℕ → μ → ℚ × ℚ × ℚ)
    (cost : ℕ → μ → ℚ) (n_iterations nb_initialization_cycles : ℕ) :
    Except String (μ → MuscleObs) := do
  let st ← initPhase muscles bounds onset_draws offset_draws cost
    nb_initialization_cycles (fun _ => initMuscleObs)
  .ok (mainLoop muscles suggest cost nb_initialization_cycles n_iterations 0 st)

/-- Single-muscle view of a run: fold `k` successive observations, with
evaluation index starting at `i`, into one muscle's store. -/
def singleRun (x : ℕ → ℚ × ℚ × ℚ) (c : ℕ → ℚ) : ℕ → ℕ → MuscleObs → MuscleObs
  | 0, _, s => s
  | k + 1, i, s => singleRun x c k (i + 1) (recordObservation s (x i) (c i))

/-- The `PARAMS_BOUNDS["biceps_r"]` entry produced by `set_param_bounds()`
(src/constants.py): onset in [-20, 30], offset in [-30, -5] (from the
overlap computation against `triceps_r`), intensity in [5, 15]. -/
def bicepsRBounds : ParamBounds := ⟨-20, 30, -30, -5, 5, 15⟩

/-- Suggested candidates of the example optimizer run used as a witness. -/
def c5suggest : ℕ → Muscle → ℚ × ℚ × ℚ := fun _ _ => (3, 4, 5)

/-- Costs of the example optimizer run. -/
def c5cost : ℕ → Muscle → ℚ := fun _ _ => 2

/-- The final state of the example optimizer run (no initialization cycle,
one main iteration). -/
def c5stF : Muscle → MuscleObs :=
  (optimize [Muscle.biceps_r] (fun _ => bicepsRBounds) (fun _ _ => 0) (fun _ _ => 0)
    c5suggest c5cost 1 0).toOption.getD (fun _ => initMuscleObs)

/-- The standard normal CDF, `scipy.stats.norm.cdf`. -/
noncomputable def norm_cdf (z : ℝ) : ℝ :=
  ProbabilityTheory.cdf (ProbabilityTheory.gaussianReal 0 1) z

/-- Embedding of `BayesianOptimizer.probability_of_improvement`
(src/bayesian_optimizer.py lines 120-135) at one query point: the GP
prediction at the point is abstracted by its mean and standard deviation and
the incumbent by `best_y`; the std is floored at 1e-10 before dividing
(line 129) and PI = Φ((best_y − mean − ξ) / std). -/
noncomputable def probability_of_improvement (best_y mean xi std : ℝ) : ℝ :=
  norm_cdf ((best_y - mean - xi) / max std 1e-10)

/-- RBF kernel `GaussianProcess.rbf_kernel` (src/bayesian_optimizer.py lines
47-50): entries exp(-0.5·‖x₁ᵢ − x₂ⱼ‖² / ℓ²) of squared euclidean
distances. -/
noncomputable def rbf_kernel {a b d : ℕ} (length_scale : ℝ)
    (x1 : Matrix (Fin a) (Fin d) ℝ) (x2 : Matrix (Fin b) (Fin d) ℝ) :
    Matrix (Fin a) (Fin b) ℝ :=
  Matrix.of fun i j =>
    Real.exp (-0.5 * (∑ t, (x1 i t - x2 j t) ^ 2) / length_scale ^ 2)

/-- State of a fitted `GaussianProcess` (src/bayesian_optimizer.py lines
28-60): the kernel parameters, the stored training data and the cached
inverse covariance matrix. -/
structure GaussianProcess (n d : ℕ) where
  length_scale : ℝ
  noise : ℝ
  input_training_data : Matrix (Fin n) (Fin d) ℝ
  output_training_data : Fin n → ℝ
  K_inv : Matrix (Fin n) (Fin n) ℝ

/-- `GaussianProcess.fit` (src/bayesian_optimizer.py lines 52-60): store the
data and cache (K + noise·I)⁻¹. -/
noncomputable def GaussianProcess.fit {n d : ℕ} (length_scale noise : ℝ)
    (input : Matrix (Fin n) (Fin d) ℝ) (output : Fin n → ℝ) : GaussianProcess n d :=
  ⟨length_scale, noise, input, output,
    (rbf_kernel length_scale input input + noise • (1 : Matrix (Fin n) (Fin n) ℝ))⁻¹⟩

/-- `GaussianProcess.predict` (src/bayesian_optimizer.py lines 62-78) on a
batch of query points: mean = K*·K⁻¹·y and
std_i = sqrt(max((K** − K*·K⁻¹·K*ᵀ)_{ii}, 1e-10)). -/
noncomputable def GaussianProcess.predict {n d m : ℕ} (gp : GaussianProcess n d)
    (test_data : Matrix (Fin m) (Fin d) ℝ) : (Fin m → ℝ) × (Fin m → ℝ) :=
  let K_star := rbf_kernel gp.length_scale test_data gp.input_training_data
  let K_star_star := rbf_kernel gp.length_scale test_data test_data
  let mean := (K_star * gp.K_inv).mulVec gp.output_training_data
  let var := K_star_star - K_star * gp.K_inv * K_star.transpose
  (mean, fun i => Real.sqrt (max (var i i) 1e-10))

/-- Python float modulo for nonzero modulus: `a % b = a - b*floor(a/b)`. -/
noncomputable def pyMod (a b : ℝ) : ℝ := a - b * ⌊a / b⌋

/-- `PedalWorker.rotated_angle` (src/pedal_worker.py lines 105-112): shift
each (radian) angle by -π/2 and wrap into [0, 2π). -/
noncomputable def rotated_angle (angles : List ℝ) : List ℝ :=
  angles.map (fun a => pyMod (a - Real.pi / 2) (2 * Real.pi))

/-- The guard of the per-muscle cost functions, e.g.
`BayesianOptimizationWorker._biceps_r_cost` (src/bo_worker.py lines 186-188):
true when some segmented angle is below 0 or above 2π. -/
def angle_guard_triggers (angles : List ℝ) : Prop :=
  (∃ a ∈ angles, a < 0) ∨ (∃ a ∈ angles, 2 * Real.pi < a)

open scoped Classical in
/-- `BayesianOptimizationWorker._biceps_r_cost` (src/bo_worker.py lines
184-212) on the concatenated (`np.hstack`) angle and right-power samples of
the kept cycles, with the controller's biceps intensity: guard the angle
range, select the samples whose angle lies strictly inside the radian
cutoff window [110°, 285°], and return -Σ power² + 0.05·intensity². -/
noncomputable def biceps_r_cost (angles right_power : List ℝ) (intensity : ℝ) :
    Except String ℝ :=
  if angle_guard_triggers angles then
    Except.error "Something went wrong with angle wrapping, angles should be in [0, 2pi]"
  else
    let lower_bound := (110 : ℝ) * Real.pi / 180
    let upper_bound := (285 : ℝ) * Real.pi / 180
    let selected := (angles.zip right_power).filter
      (fun p => decide (lower_bound < p.1 ∧ p.1 < upper_bound))
    let power := -((selected.map (fun p => p.2 ^ 2)).sum)
    Except.ok (power + 0.05 * intensity ^ 2)

/-- Claim C1: for every onset, offset and current angle a in [0,360): if
onset < offset the window test returns true iff onset ≤ a ≤ offset; if
onset > offset it returns true iff not (offset ≤ a ≤ onset); and if
onset = offset it raises a fatal error instead of returning a value. -/
theorem C1_window_membership (onset offset a : ℚ)
    (ha : 0 ≤ a ∧ a < 360) :
    (onset < offset →
      should_stimulation_be_active a onset offset =
        Except.ok (decide (onset ≤ a ∧ a ≤ offset))) ∧
    (offset < onset →
      should_stimulation_be_active a onset offset =
        Except.ok (decide (¬ (offset ≤ a ∧ a ≤ onset)))) ∧
    (onset = offset →
      should_stimulation_be_active a onset offset =
        Except.error "The onset and offset have the same value.") := by
  refine ⟨fun h => ?_, fun h => ?_, fun h => ?_⟩
  · rw [should_stimulation_be_active, if_pos h]
    by_cases h1 : onset ≤ a <;> by_cases h2 : a ≤ offset <;> simp [h1, h2]
  · rw [should_stimulation_be_active, if_neg (not_lt_of_gt h), if_pos h]
    by_cases h1 : offset ≤ a <;> by_cases h2 : a ≤ onset <;> simp [h1, h2]
  · subst h
    simp [should_stimulation_be_active]

/-- Witness for C1 at onset 220, offset 10, angle 0. -/
theorem C1_window_membership_witness :
    ((0 : ℚ) ≤ 0 ∧ (0 : ℚ) < 360) ∧
    (((220 : ℚ) < 10 →
      should_stimulation_be_active 0 220 10 =
        Except.ok (decide ((220 : ℚ) ≤ 0 ∧ (0 : ℚ) ≤ 10))) ∧
    ((10 : ℚ) < 220 →
      should_stimulation_be_active 0 220 10 =
        Except.ok (decide (¬ ((10 : ℚ) ≤ 0 ∧ (0 : ℚ) ≤ 220)))) ∧
    ((220 : ℚ) = 10 →
      should_stimulation_be_active 0 220 10 =
        Except.error "The onset and offset have the same value.")) :=
  ⟨by norm_num, C1_window_membership 220 10 0 (by norm_num)⟩

/-- Claim C2, code evaluated at the failing input: `apply_parameters` accepts
no gating argument and unconditionally overwrites the channel intensity:
applying parameters with intensity 7 to the default state (intensity 10)
changes the stored intensity, so no gate that can leave intensities
unchanged exists in the definition. -/
theorem C2_apply_parameters_always_sets_intensity :
    (apply_parameters initControllerState testStimParameters).intensity Muscle.biceps_r = 7 ∧
    initControllerState.intensity Muscle.biceps_r = 10 := by
  constructor <;> rfl

/-- Claim C3 counterexample: with the wrapping window onset = 220 > offset =
10, the boundary angle a = 220 (= onset) is classified as NOT active. -/
theorem C3_boundary_counterexample :
    should_stimulation_be_active 220 220 10 = Except.ok false := by
  rfl

/-- Claim C3 (amended): for every valid window, in the non-wrapping branch
(onset < offset) both boundary angles are classified inside the active arc,
while in the wrapping branch (onset > offset) both boundary angles are
classified outside it. -/
theorem C3_boundary_membership (onset offset : ℚ)
    (h0 : 0 ≤ onset) (h1 : onset < 360) (h2 : 0 ≤ offset) (h3 : offset < 360) :
    (onset < offset →
      should_stimulation_be_active onset onset offset = Except.ok true ∧
      should_stimulation_be_active offset onset offset = Except.ok true) ∧
    (offset < onset →
      should_stimulation_be_active onset onset offset = Except.ok false ∧
      should_stimulation_be_active offset onset offset = Except.ok false) := by
  constructor
  · intro h
    constructor
    · simp [should_stimulation_be_active, h, le_of_lt h]
    · simp [should_stimulation_be_active, h, le_of_lt h]
  · intro h
    constructor
    · simp [should_stimulation_be_active, h, not_lt_of_gt h, le_of_lt h]
    · simp [should_stimulation_be_active, h, not_lt_of_gt h, le_of_lt h]

/-- Witness for C3 (amended) at onset 220, offset 10. -/
theorem C3_boundary_membership_witness :
    ((0 : ℚ) ≤ 220 ∧ (220 : ℚ) < 360 ∧ (0 : ℚ) ≤ 10 ∧ (10 : ℚ) < 360) ∧
    (((220 : ℚ) < 10 →
      should_stimulation_be_active 220 220 10 = Except.ok true ∧
      should_stimulation_be_active 10 220 10 = Except.ok true) ∧
    ((10 : ℚ) < 220 →
      should_stimulation_be_active 220 220 10 = Except.ok false ∧
      should_stimulation_be_active 10 220 10 = Except.ok false)) :=
  ⟨by norm_num,
    C3_boundary_membership 220 10 (by norm_num) (by norm_num) (by norm_num) (by norm_num)⟩

/-- Bind on an `Except` error propagates the error. -/
theorem except_error_bind {ε α β : Type} (e : ε) (f : α → Except ε β) :
    (Except.error e >>= f) = Except.error e := rfl

/-- Bind on an `Except` success applies the continuation. -/
theorem except_ok_bind {ε α β : Type} (a : α) (f : α → Except ε β) :
    (Except.ok a >>= f) = f a := rfl

/-- Helper for C6: when the current angle is inside [0, 360], no iteration of
the control tick can produce the angle-range error (the only other error
source is the distinct onset-equals-offset message). -/
theorem update_tick_ne_angle_error (keys : List Muscle) :
    ∀ (st : ControllerState) (act deact : Bool),
      0 ≤ st.angle → st.angle ≤ 360 →
      update_tick keys st act deact ≠ Except.error "EEEEEEEEEEEEEEror" := by
  induction keys with
  | nil =>
    intro st act deact _ _
    simp [update_tick]
  | cons key rest ih =>
    intro st act deact h0 h1
    rw [update_tick]
    have hcond : ¬ (360 < st.angle ∨ st.angle < 0) := by
      push_neg
      exact ⟨h1, h0⟩
    rw [if_neg hcond]
    rcases hsa :
        should_stimulation_be_active st.angle
          (st.stimulation_range key).1 (st.stimulation_range key).2 with e | b
    · have he : e = "The onset and offset have the same value." := by
        unfold should_stimulation_be_active at hsa
        split at hsa
        · simp at hsa
        · split at hsa
          · simp at hsa
          · simpa using hsa.symm
      subst he
      rw [except_error_bind]
      intro hc
      rw [Except.error.injEq] at hc
      exact absurd hc (by decide)
    · rw [except_ok_bind]
      split
      · exact ih _ _ _ h0 h1
      · split
        · exact ih _ _ _ h0 h1
        · exact ih _ _ _ h0 h1

/-- Claim C6 (amended): with a nonempty key list, the control tick raises the
fatal angle error exactly when the current angle is above 360 or below 0; the
boundary angle 360 itself passes the check, and for every angle in [0, 360]
the angle-range error is never raised (the tick may still raise the distinct
onset-equals-offset error). -/
theorem C6_angle_range_check (keys : List Muscle) (st : ControllerState) (a : ℚ)
    (hk : keys ≠ []) :
    (360 < a ∨ a < 0 →
      update_stimulation_for_current_angle keys st a = Except.error "EEEEEEEEEEEEEEror") ∧
    (0 ≤ a → a ≤ 360 →
      update_stimulation_for_current_angle keys st a ≠ Except.error "EEEEEEEEEEEEEEror") := by
  constructor
  · intro hout
    cases keys with
    | nil => exact absurd rfl hk
    | cons key rest =>
      rw [update_stimulation_for_current_angle, update_tick]
      rw [if_pos hout]
  · intro h0 h1
    exact update_tick_ne_angle_error keys _ false false h0 h1

/-- Witness for C6 (amended) on the default controller state at angle 400. -/
theorem C6_angle_range_check_witness :
    ([Muscle.biceps_r] ≠ ([] : List Muscle)) ∧
    (((360 : ℚ) < 400 ∨ (400 : ℚ) < 0 →
      update_stimulation_for_current_angle [Muscle.biceps_r] initControllerState 400 =
        Except.error "EEEEEEEEEEEEEEror") ∧
    ((0 : ℚ) ≤ 400 → (400 : ℚ) ≤ 360 →
      update_stimulation_for_current_angle [Muscle.biceps_r] initControllerState 400 ≠
        Except.error "EEEEEEEEEEEEEEror")) :=
  ⟨by simp, C6_angle_range_check [Muscle.biceps_r] initControllerState 400 (by simp)⟩

/-- Claim C6 counterexample: at angle exactly 360, which is outside [0, 360),
the control tick does not raise: on the default state it returns normally
(activating the biceps channel). -/
theorem C6_angle_counterexample :
    ∃ r, update_stimulation_for_current_angle [Muscle.biceps_r] initControllerState 360 =
      Except.ok r :=
  ⟨_, rfl⟩

/-- Except.map on a success value applies the function. -/
theorem except_map_ok {ε α β : Type} (f : α → β) (a : α) :
    (Except.ok a : Except ε α).map f = Except.ok (f a) := rfl

/-- Claim C4: during the initialization phase, for every muscle the intensity
used at trial i is exactly min + i * (max - min) / (n - 1), independent of
the random onset/offset draws; in particular for n = 5 and intensity bounds
[5, 15] the intensity sequence is exactly 5, 7.5, 10, 12.5, 15. -/
theorem C4_habituation_ramp (b : ParamBounds) (n i : ℕ) (h2 : 2 ≤ n) (hi : i < n) :
    (∀ onset_draw offset_draw : ℚ,
      initTrialParams b n i onset_draw offset_draw =
        Except.ok (onset_draw, offset_draw,
          b.pulse_intensity_lo + (i : ℚ) *
            ((b.pulse_intensity_hi - b.pulse_intensity_lo) / ((n : ℚ) - 1)))) ∧
    (∀ bb : ParamBounds, bb.pulse_intensity_lo = PULSE_INTENSITY_BOUNDS.1 →
      bb.pulse_intensity_hi = PULSE_INTENSITY_BOUNDS.2 →
      (List.range 5).map (fun j => (initTrialParams bb 5 j 0 0).map (fun x => x.2.2)) =
        [Except.ok 5, Except.ok (15 / 2 : ℚ), Except.ok 10,
          Except.ok (25 / 2 : ℚ), Except.ok 15]) := by
  have hden : ((n : ℚ) - 1) ≠ 0 := by
    have : (2 : ℚ) ≤ (n : ℚ) := by exact_mod_cast h2
    intro hc
    nlinarith
  constructor
  · intro onset_draw offset_draw
    simp [initTrialParams, pyDiv, hden, except_ok_bind]
  · intro bb h1 h2'
    have hr : List.range 5 = [0, 1, 2, 3, 4] := by decide
    rw [hr]
    simp only [List.map, initTrialParams, pyDiv, h1, h2', PULSE_INTENSITY_BOUNDS]
    norm_num [except_map_ok, except_ok_bind]

/-- Witness for C4 at n = 5, i = 3, with the biceps_r bounds. -/
theorem C4_habituation_ramp_witness :
    (2 ≤ 5 ∧ 3 < 5) ∧
    ((∀ onset_draw offset_draw : ℚ,
      initTrialParams bicepsRBounds 5 3 onset_draw offset_draw =
        Except.ok (onset_draw, offset_draw,
          bicepsRBounds.pulse_intensity_lo + ((3 : ℕ) : ℚ) *
            ((bicepsRBounds.pulse_intensity_hi - bicepsRBounds.pulse_intensity_lo) /
              (((5 : ℕ) : ℚ) - 1)))) ∧
    (∀ bb : ParamBounds, bb.pulse_intensity_lo = PULSE_INTENSITY_BOUNDS.1 →
      bb.pulse_intensity_hi = PULSE_INTENSITY_BOUNDS.2 →
      (List.range 5).map (fun j => (initTrialParams bb 5 j 0 0).map (fun x => x.2.2)) =
        [Except.ok 5, Except.ok (15 / 2 : ℚ), Except.ok 10,
          Except.ok (25 / 2 : ℚ), Except.ok 15])) :=
  ⟨by norm_num, C4_habituation_ramp bicepsRBounds 5 3 (by norm_num) (by norm_num)⟩

/-- Helper for C9 and C5: with at least one muscle, a single initialization
cycle divides by `n - 1 = 0` and the whole phase raises `ZeroDivisionError`,
whatever the draw and cost oracles are. -/
theorem initPhase_one_cycle_zero_div {μ : Type} [DecidableEq μ] (m : μ) (rest : List μ)
    (bounds : μ → ParamBounds) (od fd : ℕ → μ → ℚ) (cost : ℕ → μ → ℚ)
    (st0 : μ → MuscleObs) :
    initPhase (m :: rest) bounds od fd cost 1 st0 = Except.error "ZeroDivisionError" := by
  have hden : ((1 : ℕ) : ℚ) - 1 = 0 := by norm_num
  simp [initPhase, initPhaseLoop, initCycle, buildTrialParams, initTrialParams,
    pyDiv, hden, except_error_bind]

/-- Claim C9: `initialize` divides by `nb_initialization_cycles - 1`, so with
`nb_initialization_cycles = 1` and at least one muscle it (and hence
`optimize`) raises `ZeroDivisionError`; the result is the error whatever the
cost oracle returns, so the error precedes any evaluation. -/
theorem C9_init_single_cycle_division_error {μ : Type} [DecidableEq μ]
    (muscles : List μ) (bounds : μ → ParamBounds) (od fd : ℕ → μ → ℚ)
    (suggest : ℕ → μ → ℚ × ℚ × ℚ) (cost : ℕ → μ → ℚ) (n_iterations : ℕ)
    (hk : muscles ≠ []) :
    initPhase muscles bounds od fd cost 1 (fun _ => initMuscleObs) =
      Except.error "ZeroDivisionError" ∧
    optimize muscles bounds od fd suggest cost n_iterations 1 =
      Except.error "ZeroDivisionError" := by
  cases muscles with
  | nil => exact absurd rfl hk
  | cons m rest =>
    have h := initPhase_one_cycle_zero_div m rest bounds od fd cost (fun _ => initMuscleObs)
    exact ⟨h, by simp [optimize, h, except_error_bind]⟩

/-- Witness for C9 with the single muscle biceps_r and constant oracles. -/
theorem C9_init_single_cycle_division_error_witness :
    ([Muscle.biceps_r] ≠ ([] : List Muscle)) ∧
    (initPhase [Muscle.biceps_r] (fun _ => bicepsRBounds) (fun _ _ => 0) (fun _ _ => 0)
        (fun _ _ => 0) 1 (fun _ => initMuscleObs) = Except.error "ZeroDivisionError" ∧
    optimize [Muscle.biceps_r] (fun _ => bicepsRBounds) (fun _ _ => 0) (fun _ _ => 0)
        (fun _ _ => (0, 0, 0)) (fun _ _ => 0) 2 1 = Except.error "ZeroDivisionError") :=
  ⟨by simp,
    C9_init_single_cycle_division_error [Muscle.biceps_r] (fun _ => bicepsRBounds)
      (fun _ _ => 0) (fun _ _ => 0) (fun _ _ => (0, 0, 0)) (fun _ _ => 0) 2 (by simp)⟩

/-- `recordAll` on the empty evaluation list is a no-op. -/
theorem recordAll_nil {μ : Type} [DecidableEq μ] (cost : μ → ℚ) (st : μ → MuscleObs) :
    recordAll cost [] st = st := rfl

/-- `recordAll` peels off the head evaluation. -/
theorem recordAll_cons {μ : Type} [DecidableEq μ] (cost : μ → ℚ)
    (p : μ × (ℚ × ℚ × ℚ)) (xs : List (μ × (ℚ × ℚ × ℚ))) (st : μ → MuscleObs) :
    recordAll cost (p :: xs) st =
      recordAll cost xs
        (Function.update st p.1 (recordObservation (st p.1) p.2 (cost p.1))) := rfl

/-- A muscle that does not occur among the evaluation keys is untouched. -/
theorem recordAll_not_mem {μ : Type} [DecidableEq μ] (cost : μ → ℚ) (m : μ) :
    ∀ (xs : List (μ × (ℚ × ℚ × ℚ))) (st : μ → MuscleObs),
      m ∉ xs.map Prod.fst → recordAll cost xs st m = st m := by
  intro xs
  induction xs with
  | nil => intro st _; rfl
  | cons p rest ih =>
    intro st h
    simp only [List.map_cons, List.mem_cons, not_or] at h
    rw [recordAll_cons, ih _ h.2, Function.update_noteq h.1]

/-- With pairwise distinct keys, the net effect of one evaluation on a muscle
that occurs with value `x` is a single `recordObservation`. -/
theorem recordAll_mem {μ : Type} [DecidableEq μ] (cost : μ → ℚ) (m : μ) (x : ℚ × ℚ × ℚ) :
    ∀ (xs : List (μ × (ℚ × ℚ × ℚ))) (st : μ → MuscleObs),
      (xs.map Prod.fst).Nodup → (m, x) ∈ xs →
      recordAll cost xs st m = recordObservation (st m) x (cost m) := by
  intro xs
  induction xs with
  | nil => intro st _ hmem; cases hmem
  | cons p rest ih =>
    intro st hnd hmem
    simp only [List.map_cons, List.nodup_cons] at hnd
    rcases List.mem_cons.mp hmem with heq | hmem'
    · have hp1 : p.1 = m := by rw [← heq]
      have hp2 : p.2 = x := by rw [← heq]
      subst hp1
      subst hp2
      rw [recordAll_cons,
        recordAll_not_mem cost p.1 rest _ hnd.1, Function.update_same]
    · have hne : p.1 ≠ m := by
        intro hc
        subst hc
        exact hnd.1 (List.mem_map.mpr ⟨(p.1, x), hmem', rfl⟩)
      rw [recordAll_cons, ih _ hnd.2 hmem', Function.update_noteq (Ne.symm hne)]

/-- When `n ≠ 1`, building the trial parameters of initialization cycle `i`
succeeds and yields, per muscle, the random draws together with the ramp
intensity. -/
theorem buildTrialParams_ok {μ : Type} (bounds : μ → ParamBounds)
    (od fd : ℕ → μ → ℚ) (n i : ℕ) (hden : ((n : ℚ) - 1) ≠ 0) :
    ∀ l : List μ,
      buildTrialParams bounds od fd n i l =
        Except.ok (l.map (fun m => (m, (od i m, fd i m, rampIntensity (bounds m) n i)))) := by
  intro l
  induction l with
  | nil => rfl
  | cons m rest ih =>
    simp [buildTrialParams, initTrialParams, pyDiv, hden, except_ok_bind, ih, rampIntensity]

/-- Mapping muscles to key/value pairs and back to the keys is the identity. -/
theorem map_fst_pair_map {μ β : Type} (g : μ → β) (l : List μ) :
    (l.map (fun m => (m, g m))).map Prod.fst = l := by
  induction l with
  | nil => rfl
  | cons a t ih => simp [ih]

/-- Projection of the initialization loop to a single muscle: when the loop
succeeds, the muscle's store is the fold of its own observations. -/
theorem initPhaseLoop_proj {μ : Type} [DecidableEq μ] (muscles : List μ)
    (bounds : μ → ParamBounds) (od fd : ℕ → μ → ℚ) (cost : ℕ → μ → ℚ) (n : ℕ) (m : μ)
    (hden : ((n : ℚ) - 1) ≠ 0) (hnd : muscles.Nodup) (hm : m ∈ muscles) :
    ∀ (k i : ℕ) (st0 stF : μ → MuscleObs),
      initPhaseLoop muscles bounds od fd cost n k i st0 = Except.ok stF →
      stF m = singleRun (fun t => (od t m, fd t m, rampIntensity (bounds m) n t))
        (fun t => cost t m) k i (st0 m) := by
  intro k
  induction k with
  | zero =>
    intro i st0 stF hok
    simp only [initPhaseLoop, Except.ok.injEq] at hok
    rw [← hok]
    rfl
  | succ k ih =>
    intro i st0 stF hok
    simp only [initPhaseLoop, initCycle, buildTrialParams_ok bounds od fd n i hden,
      except_ok_bind] at hok
    have hkeys : ((muscles.map
        (fun m' => (m', (od i m', fd i m', rampIntensity (bounds m') n i)))).map
          Prod.fst).Nodup := by
      rw [map_fst_pair_map]
      exact hnd
    have hmem : (m, (od i m, fd i m, rampIntensity (bounds m) n i)) ∈
        muscles.map (fun m' => (m', (od i m', fd i m', rampIntensity (bounds m') n i))) :=
      List.mem_map_of_mem _ hm
    have hrec := recordAll_mem (cost i) m _ _ st0 hkeys hmem
    rw [singleRun]
    rw [← hrec]
    exact ih (i + 1) _ stF hok

/-- Projection of the main optimization loop to a single muscle. -/
theorem mainLoop_proj {μ : Type} [DecidableEq μ] (muscles : List μ)
    (suggest : ℕ → μ → ℚ × ℚ × ℚ) (cost : ℕ → μ → ℚ) (nb : ℕ) (m : μ)
    (hnd : muscles.Nodup) (hm : m ∈ muscles) :
    ∀ (k i : ℕ) (st : μ → MuscleObs),
      mainLoop muscles suggest cost nb k i st m =
        singleRun (fun t => suggest t m) (fun t => cost (nb + t) m) k i (st m) := by
  intro k
  induction k with
  | zero => intro i st; rfl
  | succ k ih =>
    intro i st
    have hkeys : ((muscles.map (fun m' => (m', suggest i m'))).map Prod.fst).Nodup := by
      rw [map_fst_pair_map]
      exact hnd
    have hmem : (m, suggest i m) ∈ muscles.map (fun m' => (m', suggest i m')) :=
      List.mem_map_of_mem _ hm
    have hrec := recordAll_mem (cost (nb + i)) m _ _ st hkeys hmem
    simp only [mainLoop, mainStep, ih]
    rw [hrec]
    rfl

/-- The outputs recorded by a single-muscle run, in evaluation order. -/
theorem singleRun_output (x : ℕ → ℚ × ℚ × ℚ) (c : ℕ → ℚ) :
    ∀ (k i : ℕ) (s : MuscleObs),
      (singleRun x c k i s).output_observed =
        s.output_observed ++ (List.range k).map (fun j => c (i + j)) := by
  intro k
  induction k with
  | zero => intro i s; simp [singleRun]
  | succ k ih =>
    intro i s
    rw [singleRun, ih]
    rw [List.range_succ_eq_map, List.map_cons, List.map_map]
    rw [show (i + 0) = i from rfl, List.append_cons]
    have : ((List.range k).map (fun j => c (i + 1 + j))) =
        (List.range k).map ((fun j => c (i + j)) ∘ Nat.succ) := by
      apply List.map_congr_left
      intro a _
      simp only [Function.comp]
      congr 1
      omega
    rw [this]
    rfl

/-- The inputs recorded by a single-muscle run, in evaluation order. -/
theorem singleRun_input (x : ℕ → ℚ × ℚ × ℚ) (c : ℕ → ℚ) :
    ∀ (k i : ℕ) (s : MuscleObs),
      (singleRun x c k i s).input_observed =
        s.input_observed ++ (List.range k).map (fun j => x (i + j)) := by
  intro k
  induction k with
  | zero => intro i s; simp [singleRun]
  | succ k ih =>
    intro i s
    rw [singleRun, ih]
    rw [List.range_succ_eq_map, List.map_cons, List.map_map]
    rw [show (i + 0) = i from rfl, List.append_cons]
    have : ((List.range k).map (fun j => x (i + 1 + j))) =
        (List.range k).map ((fun j => x (i + j)) ∘ Nat.succ) := by
      apply List.map_congr_left
      intro a _
      simp only [Function.comp]
      congr 1
      omega
    rw [this]
    rfl

/-- The conditional update of the incumbent is a running minimum. -/
theorem record_best_y_min (s : MuscleObs) (x : ℕ → ℚ × ℚ × ℚ) (i : ℕ) (y : ℚ) :
    (recordObservation s (x i) y).best_y = min s.best_y (y : WithTop ℚ) := by
  rcases lt_or_ge ((y : ℚ) : WithTop ℚ) s.best_y with h | h
  · simp [recordObservation, if_pos h, min_eq_right (le_of_lt h)]
  · simp [recordObservation, if_neg (not_lt_of_ge h), min_eq_left h]

/-- The incumbent after a single-muscle run is the running minimum of the
starting incumbent and all recorded costs. -/
theorem singleRun_best_y (x : ℕ → ℚ × ℚ × ℚ) (c : ℕ → ℚ) :
    ∀ (k i : ℕ) (s : MuscleObs),
      (singleRun x c k i s).best_y =
        List.foldl min s.best_y
          ((List.range k).map (fun j => ((c (i + j) : ℚ) : WithTop ℚ))) := by
  intro k
  induction k with
  | zero => intro i s; simp [singleRun]
  | succ k ih =>
    intro i s
    rw [singleRun, ih]
    rw [List.range_succ_eq_map, List.map_cons, List.map_map]
    rw [show (i + 0) = i from rfl]
    have : ((List.range k).map (fun j => ((c (i + 1 + j) : ℚ) : WithTop ℚ))) =
        (List.range k).map ((fun j => ((c (i + j) : ℚ) : WithTop ℚ)) ∘ Nat.succ) := by
      apply List.map_congr_left
      intro a _
      simp only [Function.comp]
      congr 2
      omega
    rw [this]
    rw [List.foldl_cons, record_best_y_min s x i (c i)]

/-- A left fold of `min` is below its seed and below every element. -/
theorem foldl_min_le {α : Type} [LinearOrder α] :
    ∀ (l : List α) (a : α),
      List.foldl min a l ≤ a ∧ ∀ x ∈ l, List.foldl min a l ≤ x := by
  intro l
  induction l with
  | nil => intro a; exact ⟨le_refl a, by simp⟩
  | cons b rest ih =>
    intro a
    obtain ⟨h1, h2⟩ := ih (min a b)
    refine ⟨le_trans h1 (min_le_left a b), ?_⟩
    intro z hz
    rcases List.mem_cons.mp hz with hz | hz
    · subst hz
      exact le_trans h1 (min_le_right a z)
    · exact h2 z hz

/-- A left fold of `min` is either its seed or one of the elements. -/
theorem foldl_min_mem {α : Type} [LinearOrder α] :
    ∀ (l : List α) (a : α),
      List.foldl min a l = a ∨ List.foldl min a l ∈ l := by
  intro l
  induction l with
  | nil => intro a; exact Or.inl rfl
  | cons b rest ih =>
    intro a
    rcases ih (min a b) with h | h
    · rcases min_choice a b with hc | hc
      · exact Or.inl (by rw [List.foldl_cons, h, hc])
      · exact Or.inr (by rw [List.foldl_cons, h, hc]; exact List.mem_cons_self b rest)
    · exact Or.inr (List.mem_cons_of_mem b h)

/-- Claim C5: for every run of `optimize` in which every evaluation returns a
cost (the run succeeds), each muscle ends with exactly
`nb_initialization_cycles + n_iterations` observations appended in
evaluation order, the incumbent is the running minimum of the recorded
costs (replaced only by strictly lower costs), equals the minimum over all
of the muscle's recorded costs, and is ≤ the cost of every evaluated
candidate. -/
theorem C5_optimize_observations {μ : Type} [DecidableEq μ] (muscles : List μ)
    (bounds : μ → ParamBounds) (od fd : ℕ → μ → ℚ) (suggest : ℕ → μ → ℚ × ℚ × ℚ)
    (cost : ℕ → μ → ℚ) (n_iterations nb : ℕ) (m : μ) (stF : μ → MuscleObs)
    (hnd : muscles.Nodup) (hm : m ∈ muscles)
    (hok : optimize muscles bounds od fd suggest cost n_iterations nb = Except.ok stF)
    (hpos : 0 < nb + n_iterations) :
    (stF m).output_observed = (List.range (nb + n_iterations)).map (fun t => cost t m) ∧
    (stF m).input_observed =
      (List.range (nb + n_iterations)).map (fun t =>
        if t < nb then (od t m, fd t m, rampIntensity (bounds m) nb t)
        else suggest (t - nb) m) ∧
    (stF m).best_y =
      (((stF m).output_observed).map (fun y : ℚ => (y : WithTop ℚ))).foldl min ⊤ ∧
    (∀ y ∈ (stF m).output_observed, (stF m).best_y ≤ (y : WithTop ℚ)) ∧
    (stF m).best_y ∈ ((stF m).output_observed).map (fun y : ℚ => (y : WithTop ℚ)) := by
  have hmnil : muscles ≠ [] := by
    intro hc
    rw [hc] at hm
    cases hm
  unfold optimize at hok
  rcases hini : initPhase muscles bounds od fd cost nb (fun _ => initMuscleObs)
      with e | st1
  · rw [hini, except_error_bind] at hok
    cases hok
  rw [hini, except_ok_bind, Except.ok.injEq] at hok
  subst hok
  have hnb1 : nb ≠ 1 := by
    intro hc
    subst hc
    cases muscles with
    | nil => exact hmnil rfl
    | cons a rest =>
      rw [initPhase_one_cycle_zero_div a rest bounds od fd cost _] at hini
      cases hini
  have hden : ((nb : ℚ) - 1) ≠ 0 := by
    intro hc
    apply hnb1
    have h1 : (nb : ℚ) = 1 := by linarith
    exact_mod_cast h1
  have hinit := initPhaseLoop_proj muscles bounds od fd cost nb m hden hnd hm
    nb 0 _ st1 hini
  have hmain := mainLoop_proj muscles suggest cost nb m hnd hm n_iterations 0 st1
  have hfull : mainLoop muscles suggest cost nb n_iterations 0 st1 m =
      singleRun (fun t => suggest t m) (fun t => cost (nb + t) m) n_iterations 0
        (singleRun (fun t => (od t m, fd t m, rampIntensity (bounds m) nb t))
          (fun t => cost t m) nb 0 initMuscleObs) := by
    rw [hmain, hinit]
  have hout : (mainLoop muscles suggest cost nb n_iterations 0 st1 m).output_observed =
      (List.range (nb + n_iterations)).map (fun t => cost t m) := by
    rw [hfull, singleRun_output, singleRun_output]
    rw [List.range_add, List.map_append, List.map_map]
    simp only [initMuscleObs, List.nil_append, Nat.zero_add]
    congr 1
  have hin : (mainLoop muscles suggest cost nb n_iterations 0 st1 m).input_observed =
      (List.range (nb + n_iterations)).map (fun t =>
        if t < nb then (od t m, fd t m, rampIntensity (bounds m) nb t)
        else suggest (t - nb) m) := by
    rw [hfull, singleRun_input, singleRun_input]
    rw [List.range_add, List.map_append, List.map_map]
    simp only [initMuscleObs, List.nil_append, Nat.zero_add]
    congr 1
    · apply List.map_congr_left
      intro t ht
      rw [if_pos (List.mem_range.mp ht)]
    · apply List.map_congr_left
      intro t _
      rw [Function.comp_apply, if_neg (by omega), Nat.add_sub_cancel_left]
  have hby : (mainLoop muscles suggest cost nb n_iterations 0 st1 m).best_y =
      ((List.range (nb + n_iterations)).map
        (fun t => ((cost t m : ℚ) : WithTop ℚ))).foldl min ⊤ := by
    rw [hfull, singleRun_best_y, singleRun_best_y]
    rw [show initMuscleObs.best_y = (⊤ : WithTop ℚ) from rfl]
    rw [← List.foldl_append]
    congr 1
    rw [List.range_add, List.map_append, List.map_map]
    simp only [Nat.zero_add]
    congr 1
  have hby2 : (mainLoop muscles suggest cost nb n_iterations 0 st1 m).best_y =
      (((mainLoop muscles suggest cost nb n_iterations 0 st1 m).output_observed).map
        (fun y : ℚ => (y : WithTop ℚ))).foldl min ⊤ := by
    rw [hby, hout, List.map_map]
    rfl
  have hle : ∀ y ∈ (mainLoop muscles suggest cost nb n_iterations 0 st1 m).output_observed,
      (mainLoop muscles suggest cost nb n_iterations 0 st1 m).best_y ≤ (y : WithTop ℚ) := by
    intro y hy
    rw [hby2]
    exact (foldl_min_le _ ⊤).2 _ (List.mem_map_of_mem _ hy)
  refine ⟨hout, hin, hby2, hle, ?_⟩
  rcases foldl_min_mem (((mainLoop muscles suggest cost nb n_iterations 0 st1 m).output_observed).map
      (fun y : ℚ => (y : WithTop ℚ))) ⊤ with htop | hmem
  · exfalso
    have hne : (mainLoop muscles suggest cost nb n_iterations 0 st1 m).output_observed ≠ [] := by
      rw [hout]
      intro hc
      rcases List.map_eq_nil_iff.mp hc with hc'
      rw [List.range_eq_nil] at hc'
      omega
    rcases List.exists_mem_of_ne_nil _ hne with ⟨y0, hy0⟩
    have h1 := hle y0 hy0
    rw [hby2, htop] at h1
    exact WithTop.coe_ne_top (top_le_iff.mp h1)
  · rw [hby2]
    exact hmem

/-- Witness for C5 on the example run: one muscle, no initialization cycle,
one main iteration at cost 2. -/
theorem C5_optimize_observations_witness :
    ([Muscle.biceps_r].Nodup ∧ Muscle.biceps_r ∈ [Muscle.biceps_r] ∧
      optimize [Muscle.biceps_r] (fun _ => bicepsRBounds) (fun _ _ => 0) (fun _ _ => 0)
          c5suggest c5cost 1 0 = Except.ok c5stF ∧ 0 < 0 + 1) ∧
    ((c5stF Muscle.biceps_r).output_observed =
        (List.range (0 + 1)).map (fun t => c5cost t Muscle.biceps_r) ∧
      (c5stF Muscle.biceps_r).input_observed =
        (List.range (0 + 1)).map (fun t =>
          if t < 0 then ((fun (_ : ℕ) (_ : Muscle) => (0 : ℚ)) t Muscle.biceps_r,
            (fun (_ : ℕ) (_ : Muscle) => (0 : ℚ)) t Muscle.biceps_r,
            rampIntensity bicepsRBounds 0 t)
          else c5suggest (t - 0) Muscle.biceps_r) ∧
      (c5stF Muscle.biceps_r).best_y =
        (((c5stF Muscle.biceps_r).output_observed).map
          (fun y : ℚ => (y : WithTop ℚ))).foldl min ⊤ ∧
      (∀ y ∈ (c5stF Muscle.biceps_r).output_observed,
        (c5stF Muscle.biceps_r).best_y ≤ (y : WithTop ℚ)) ∧
      (c5stF Muscle.biceps_r).best_y ∈
        ((c5stF Muscle.biceps_r).output_observed).map (fun y : ℚ => (y : WithTop ℚ))) :=
  ⟨⟨by decide, by decide, rfl, by norm_num⟩,
    C5_optimize_observations [Muscle.biceps_r] (fun _ => bicepsRBounds) (fun _ _ => 0)
      (fun _ _ => 0) c5suggest c5cost 1 0 Muscle.biceps_r c5stF (by decide) (by decide)
      rfl (by norm_num)⟩

/-- Claim C7: PI equals Φ((best_y − μ − ξ)/max(σ, 1e-10)); for fixed σ > 0 and
fixed ξ it is monotonically non-decreasing as a function of (best_y − μ); and
PI tends to 0 as μ tends to +∞ with σ and best_y fixed. -/
theorem C7_pi_acquisition (xi sigma : ℝ) (hs : 0 < sigma) :
    (∀ b mean : ℝ, probability_of_improvement b mean xi sigma =
      norm_cdf ((b - mean - xi) / max sigma 1e-10)) ∧
    (∀ b1 m1 b2 m2 : ℝ, b1 - m1 ≤ b2 - m2 →
      probability_of_improvement b1 m1 xi sigma ≤
        probability_of_improvement b2 m2 xi sigma) ∧
    (∀ b : ℝ, Filter.Tendsto (fun mean => probability_of_improvement b mean xi sigma)
      Filter.atTop (nhds 0)) := by
  have hc : (0 : ℝ) < max sigma 1e-10 := lt_max_of_lt_left hs
  refine ⟨fun b mean => rfl, ?_, ?_⟩
  · intro b1 m1 b2 m2 h
    apply ProbabilityTheory.monotone_cdf
    rw [div_le_div_iff_of_pos_right hc]
    linarith
  · intro b
    have h1 : Filter.Tendsto (fun mean : ℝ => (b - mean - xi) / max sigma 1e-10)
        Filter.atTop Filter.atBot := by
      apply Filter.Tendsto.atBot_div_const hc
      have h2 : Filter.Tendsto (fun mean : ℝ => (b - xi) + -mean)
          Filter.atTop Filter.atBot :=
        Filter.tendsto_atBot_add_const_left _ _ Filter.tendsto_neg_atTop_atBot
      refine h2.congr (fun mean => by ring)
    have h3 := (ProbabilityTheory.tendsto_cdf_atBot
      (ProbabilityTheory.gaussianReal 0 1)).comp h1
    exact h3

/-- Witness for C7 at ξ = 0, σ = 1. -/
theorem C7_pi_acquisition_witness :
    ((0 : ℝ) < 1) ∧
    ((∀ b mean : ℝ, probability_of_improvement b mean 0 1 =
      norm_cdf ((b - mean - 0) / max 1 1e-10)) ∧
    (∀ b1 m1 b2 m2 : ℝ, b1 - m1 ≤ b2 - m2 →
      probability_of_improvement b1 m1 0 1 ≤ probability_of_improvement b2 m2 0 1) ∧
    (∀ b : ℝ, Filter.Tendsto (fun mean => probability_of_improvement b mean 0 1)
      Filter.atTop (nhds 0))) :=
  ⟨by norm_num, C7_pi_acquisition 0 1 (by norm_num)⟩

/-- Claim C8: predict returns mean = K*·K⁻¹·y and, per query point,
std = sqrt(max(posterior variance, 1e-10)); the returned std is always at
least sqrt(1e-10) > 0, so below-floor or negative variances are clamped
rather than propagated. -/
theorem C8_predict_mean_and_std_floor {n d m : ℕ} (gp : GaussianProcess n d)
    (test_data : Matrix (Fin m) (Fin d) ℝ) :
    (gp.predict test_data).1 =
      (rbf_kernel gp.length_scale test_data gp.input_training_data * gp.K_inv).mulVec
        gp.output_training_data ∧
    (∀ i, (gp.predict test_data).2 i =
      Real.sqrt (max ((rbf_kernel gp.length_scale test_data test_data -
        rbf_kernel gp.length_scale test_data gp.input_training_data * gp.K_inv *
          (rbf_kernel gp.length_scale test_data gp.input_training_data).transpose) i i)
        1e-10)) ∧
    (∀ i, Real.sqrt 1e-10 ≤ (gp.predict test_data).2 i) ∧
    0 < Real.sqrt 1e-10 := by
  refine ⟨rfl, fun i => rfl, fun i => ?_, ?_⟩
  · exact Real.sqrt_le_sqrt (le_max_right _ _)
  · exact Real.sqrt_pos.mpr (by norm_num)

/-- For a positive modulus, the Python float modulo lands in [0, b). -/
theorem pyMod_mem (a b : ℝ) (hb : 0 < b) : 0 ≤ pyMod a b ∧ pyMod a b < b := by
  have hb0 : b ≠ 0 := ne_of_gt hb
  have key : pyMod a b = b * Int.fract (a / b) := by
    rw [pyMod, Int.fract, mul_sub, mul_div_cancel₀ a hb0]
  constructor
  · rw [key]
    exact mul_nonneg hb.le (Int.fract_nonneg _)
  · rw [key]
    calc b * Int.fract (a / b) < b * 1 :=
          (mul_lt_mul_left hb).mpr (Int.fract_lt_one _)
    _ = b := mul_one b

/-- Claim C10: rotated_angle is elementwise (a − π/2) mod 2π, always in
[0, 2π); consequently the cost functions' angle-range guard never triggers on
rotated data (also after concatenating several rotated cycle slices, as
`get_last_cycles_data` produces), and `_biceps_r_cost` never raises on it. -/
theorem C10_rotated_angle_guard (raw : List ℝ) :
    rotated_angle raw = raw.map (fun a => pyMod (a - Real.pi / 2) (2 * Real.pi)) ∧
    (∀ a ∈ rotated_angle raw, 0 ≤ a ∧ a < 2 * Real.pi) ∧
    ¬ angle_guard_triggers (rotated_angle raw) ∧
    (∀ (cycles : List (List ℝ)) (right_power : List ℝ) (intensity : ℝ),
      ∃ v, biceps_r_cost ((cycles.map rotated_angle).flatten) right_power intensity =
        Except.ok v) := by
  have h2pi : (0 : ℝ) < 2 * Real.pi := by positivity
  have hbounds : ∀ (l : List ℝ), ∀ a ∈ rotated_angle l, 0 ≤ a ∧ a < 2 * Real.pi := by
    intro l a ha
    rcases List.mem_map.mp ha with ⟨x, _, hx⟩
    rw [← hx]
    exact pyMod_mem (x - Real.pi / 2) (2 * Real.pi) h2pi
  have hguard : ∀ (l : List ℝ), (∀ a ∈ l, 0 ≤ a ∧ a < 2 * Real.pi) →
      ¬ angle_guard_triggers l := by
    intro l hl hg
    rcases hg with ⟨a, ha, hneg⟩ | ⟨a, ha, hbig⟩
    · exact absurd hneg (not_lt_of_ge (hl a ha).1)
    · exact absurd hbig (not_lt_of_gt (hl a ha).2)
  refine ⟨rfl, hbounds raw, hguard _ (hbounds raw), ?_⟩
  intro cycles right_power intensity
  have hflat : ∀ a ∈ (cycles.map rotated_angle).flatten, 0 ≤ a ∧ a < 2 * Real.pi := by
    intro a ha
    rcases List.mem_flatten.mp ha with ⟨l, hl, hal⟩
    rcases List.mem_map.mp hl with ⟨l0, _, hl0⟩
    rw [← hl0] at hal
    exact hbounds l0 a hal
  exact ⟨_, by rw [biceps_r_cost, if_neg (hguard _ hflat)]⟩
